import Mathlib

/-!
Verification development for the collect-tradingview pipeline core.

The definitions below are a shallow embedding of the repository's Python
source: the scoring path of `api/server.py` (`_clean_numeric`,
`_check_rate_limit`, the composite-score block of `run_backtest`), the
content-address store of `scripts/batch_scraper_v6.py`
(`compute_content_hash`, `is_duplicate`, the per-script loop of
`scrape_category`), the transform retry of
`scripts/_archive/run_pipeline.py` (`process_single_pine`) together with
`framework/pine_converter.py` (`convert_pine_to_python`), and the
per-instrument evaluation loop of `framework/backtest_engine.py`
(`run_backtest`, `run_multi_ticker_backtest`).

Python floats are modelled as exact rationals (`ℚ`), with the possibility
of the non-finite values NaN/±inf captured by the `PyNum` wrapper.
External collaborators (the LLM converter, the backtest simulator, the
market-data fetcher, the slug naming helper) are parameters of the
embedding, as the spec treats them: black boxes behind their interface.
-/

namespace CollectTV

attribute [local semireducible] Rat.sub Rat.add Rat.mul Rat.inv Rat.ofScientific

/-! ## SHA-256 over byte lists (`hashlib.sha256(...).hexdigest()`) -/

/-- Truncate to a 32-bit machine word. -/
def w32 (n : ℕ) : ℕ := n % 4294967296

/-- 32-bit right rotation. -/
def rotr (r x : ℕ) : ℕ := w32 ((x >>> r) ||| (x <<< (32 - r)))

/-- 32-bit bitwise complement. -/
def not32 (x : ℕ) : ℕ := 4294967295 ^^^ x

def shaCh (e f g : ℕ) : ℕ := (e &&& f) ^^^ (not32 e &&& g)

def shaMaj (a b c : ℕ) : ℕ := (a &&& b) ^^^ (a &&& c) ^^^ (b &&& c)

def bigSig0 (x : ℕ) : ℕ := rotr 2 x ^^^ rotr 13 x ^^^ rotr 22 x

def bigSig1 (x : ℕ) : ℕ := rotr 6 x ^^^ rotr 11 x ^^^ rotr 25 x

def smallSig0 (x : ℕ) : ℕ := rotr 7 x ^^^ rotr 18 x ^^^ (x >>> 3)

def smallSig1 (x : ℕ) : ℕ := rotr 17 x ^^^ rotr 19 x ^^^ (x >>> 10)

/-- The 64 SHA-256 round constants. -/
def K256 : List ℕ :=
  [1116352408, 1899447441, 3049323471, 3921009573, 961987163,
   1508970993, 2453635748, 2870763221, 3624381080, 310598401,
   607225278, 1426881987, 1925078388, 2162078206, 2614888103,
   3248222580, 3835390401, 4022224774, 264347078, 604807628,
   770255983, 1249150122, 1555081692, 1996064986, 2554220882,
   2821834349, 2952996808, 3210313671, 3336571891, 3584528711,
   113926993, 338241895, 666307205, 773529912, 1294757372,
   1396182291, 1695183700, 1986661051, 2177026350, 2456956037,
   2730485921, 2820302411, 3259730800, 3345764771, 3516065817,
   3600352804, 4094571909, 275423344, 430227734, 506948616,
   659060556, 883997877, 958139571, 1322822218, 1537002063,
   1747873779, 1955562222, 2024104815, 2227730452, 2361852424,
   2428436474, 2756734187, 3204031479, 3329325298]

/-- Working state: the eight 32-bit chaining words. -/
structure Sha256State where
  a : ℕ
  b : ℕ
  c : ℕ
  d : ℕ
  e : ℕ
  f : ℕ
  g : ℕ
  h : ℕ
  deriving DecidableEq, Repr

def shaInit : Sha256State :=
  ⟨1779033703, 3144134277, 1013904242, 2773480762,
   1359893119, 2600822924, 528734635, 1541459225⟩

/-- Extend a 16-word block to the 64-word message schedule. -/
def scheduleW (block : List ℕ) : List ℕ :=
  ((List.range 48).foldl
    (fun w _ =>
      w.push (w32 (smallSig1 (w.getD (w.size - 2) 0) + w.getD (w.size - 7) 0 +
                   smallSig0 (w.getD (w.size - 15) 0) + w.getD (w.size - 16) 0)))
    block.toArray).toList

/-- One round of the compression function. -/
def shaStep (st : Sha256State) (kw : ℕ × ℕ) : Sha256State :=
  let t1 := w32 (st.h + bigSig1 st.e + shaCh st.e st.f st.g + kw.1 + kw.2)
  let t2 := w32 (bigSig0 st.a + shaMaj st.a st.b st.c)
  ⟨w32 (t1 + t2), st.a, st.b, st.c, w32 (st.d + t1), st.e, st.f, st.g⟩

/-- Compress one 16-word block into the chaining state. -/
def processBlock (st : Sha256State) (block : List ℕ) : Sha256State :=
  let ws := scheduleW block
  let r := (K256.zip ws).foldl shaStep st
  ⟨w32 (st.a + r.a), w32 (st.b + r.b), w32 (st.c + r.c), w32 (st.d + r.d),
   w32 (st.e + r.e), w32 (st.f + r.f), w32 (st.g + r.g), w32 (st.h + r.h)⟩

/-- Big-endian byte expansion (`count` bytes). -/
def beBytes (count n : ℕ) : List ℕ :=
  (List.range count).map (fun i => (n >>> (8 * (count - 1 - i))) % 256)

/-- SHA-256 padding: append `0x80`, zero bytes to 56 mod 64, then the
bit length as 8 big-endian bytes. -/
def padMessage (msg : List ℕ) : List ℕ :=
  msg ++ [0x80] ++ List.replicate ((119 - msg.length % 64) % 64) 0 ++
    beBytes 8 (8 * msg.length)

/-- Group bytes into big-endian 32-bit words. -/
def bytesToWords : List ℕ → List ℕ
  | b0 :: b1 :: b2 :: b3 :: rest =>
      (((b0 * 256 + b1) * 256 + b2) * 256 + b3) :: bytesToWords rest
  | _ => []

/-- Split a word list into 16-word blocks (structural recursion on a fuel
bound, so that the kernel can evaluate it; the fuel `l.length` always
suffices since every step consumes at least one element). -/
def chunksOf16Aux : ℕ → List ℕ → List (List ℕ)
  | _, [] => []
  | 0, _ :: _ => []
  | fuel + 1, x :: xs => ((x :: xs).take 16) :: chunksOf16Aux fuel ((x :: xs).drop 16)

/-- Split a word list into 16-word blocks. -/
def chunksOf16 (l : List ℕ) : List (List ℕ) := chunksOf16Aux l.length l

/-- The SHA-256 digest state of a byte message. -/
def sha256Digest (msg : List ℕ) : Sha256State :=
  (chunksOf16 (bytesToWords (padMessage msg))).foldl processBlock shaInit

def hexDigitChar (n : ℕ) : Char :=
  if n < 10 then Char.ofNat (48 + n) else Char.ofNat (87 + n)

def byteToHex (b : ℕ) : List Char := [hexDigitChar (b / 16), hexDigitChar (b % 16)]

/-- Lowercase hex digest string, as `hashlib.sha256(..).hexdigest()` emits. -/
def sha256Hex (msg : List ℕ) : String :=
  let st := sha256Digest msg
  let bytes := ([st.a, st.b, st.c, st.d, st.e, st.f, st.g, st.h].map (beBytes 4)).flatten
  String.mk ((bytes.map byteToHex).flatten)

/-- UTF-8 encoding of one character (`str.encode('utf-8')`, per char). -/
def utf8Bytes (c : Char) : List ℕ :=
  let n := c.toNat
  if n < 128 then [n]
  else if n < 2048 then [192 ||| (n >>> 6), 128 ||| (n &&& 63)]
  else if n < 65536 then
    [224 ||| (n >>> 12), 128 ||| ((n >>> 6) &&& 63), 128 ||| (n &&& 63)]
  else
    [240 ||| (n >>> 18), 128 ||| ((n >>> 12) &&& 63),
     128 ||| ((n >>> 6) &&& 63), 128 ||| (n &&& 63)]

/-- UTF-8 encoding of a string. -/
def utf8Encode (s : String) : List ℕ := (s.data.map utf8Bytes).flatten

/-- `compute_content_hash` (batch_scraper_v6.py:103, pine_converter.py:305):
SHA-256 hex digest of the UTF-8 encoded Pine source. -/
def compute_content_hash (pineCode : String) : String :=
  sha256Hex (utf8Encode pineCode)

/-! ## Python numerics and `_clean_numeric` (api/server.py:97–105) -/

/-- A Python float-or-None metric value: either a finite number (modelled
exactly as a rational) or one of the non-finite floats. -/
inductive PyNum where
  | finite (x : ℚ)
  | nan
  | inf
  | ninf
  deriving DecidableEq, Repr

/-- `_clean_numeric`: `None` stays `None`; NaN and ±inf become `None`;
finite numbers pass through. -/
def clean_numeric : Option PyNum → Option ℚ
  | none => none
  | some (PyNum.finite x) => some x
  | some PyNum.nan => none
  | some PyNum.inf => none
  | some PyNum.ninf => none

/-- The stats-dict fields of one per-ticker result that the composite
score reads (`_STAT_KEY_MAP` keys used by the scoring block): the value
under each key, or `none` when the key is absent. -/
structure StatsMap where
  sharpe : Option PyNum        -- "Sharpe Ratio"
  ret : Option PyNum           -- "Return [%]"
  winRate : Option PyNum       -- "Win Rate [%]"
  profitFactor : Option PyNum  -- "Profit Factor"
  deriving DecidableEq, Repr

/-- One per-instrument evaluation result: either a stats dict without an
`"error"` key, or a dict carrying the `"error"` key. -/
inductive TickerStats where
  | ok (stats : StatsMap)
  | err (msg : String)
  deriving DecidableEq, Repr

/-! ## Composite score (api/server.py:236–299, `run_backtest` step 6) -/

/-- The cleaned value list for one metric: iterate the per-ticker results,
skip the ones with an `"error"` key, clean the metric value and keep it
when it is a finite number (the comprehension shape of server.py:265–279
and the sharpe collection of the response loop at server.py:256–258). -/
def metric_values (get : StatsMap → Option PyNum) (ms : List TickerStats) : List ℚ :=
  ms.filterMap fun s =>
    match s with
    | TickerStats.ok stats => clean_numeric (get stats)
    | TickerStats.err _ => none

def sharpe_values (ms : List TickerStats) : List ℚ := metric_values (·.sharpe) ms

def roi_vals (ms : List TickerStats) : List ℚ := metric_values (·.ret) ms

def wr_vals (ms : List TickerStats) : List ℚ := metric_values (·.winRate) ms

def pf_vals (ms : List TickerStats) : List ℚ := metric_values (·.profitFactor) ms

/-- The composite block of `run_backtest` (server.py:260–290): `None`
unless some sharpe value survived cleaning, otherwise the weighted sum of
the metric averages, each non-sharpe average defaulting to 0 on an empty
value list. -/
def composite (ms : List TickerStats) : Option ℚ :=
  if sharpe_values ms = [] then none
  else
    let avg_sharpe : ℚ := (sharpe_values ms).sum / (sharpe_values ms).length
    let avg_roi : ℚ :=
      if roi_vals ms = [] then 0 else (roi_vals ms).sum / (roi_vals ms).length
    let avg_wr : ℚ :=
      if wr_vals ms = [] then 0 else (wr_vals ms).sum / (wr_vals ms).length
    let avg_pf : ℚ :=
      if pf_vals ms = [] then 0 else (pf_vals ms).sum / (pf_vals ms).length
    some (avg_sharpe * 0.3 + avg_roi / 100 * 0.25 + avg_wr / 100 * 0.25 + avg_pf / 10 * 0.2)

/-- `round(x, 4)`: round to four decimal places. -/
def round4 (q : ℚ) : ℚ := ((round (q * 10000) : ℤ) : ℚ) / 10000

/-- The `composite_score` field of the response (server.py:295):
`round(composite, 4) if composite is not None else None`. -/
def composite_score (ms : List TickerStats) : Option ℚ :=
  match composite ms with
  | some c => some (round4 c)
  | none => none

/-- The successes among the per-instrument results (results without an
`"error"` key), in order. -/
def okStats (ms : List TickerStats) : List StatsMap :=
  ms.filterMap fun s =>
    match s with
    | TickerStats.ok stats => some stats
    | TickerStats.err _ => none

/-- Arithmetic mean of a rational list (0 for the empty list, since
division by zero is zero in `ℚ`). -/
def listMean (l : List ℚ) : ℚ := l.sum / l.length

/-- The finite value of a cleaned metric, defaulting to 0; the default is
never reached where this is used under an all-finite hypothesis. -/
def finValD (o : Option PyNum) : ℚ := (clean_numeric o).getD 0

/-- The spec's three-instrument scenario: instrument A succeeds with
return 10, sharpe 1.5, win rate 60, profit factor 2.0; B fails; C succeeds
with return -5, sharpe -0.2, win rate 40, profit factor 0.8. -/
def scenarioResults : List TickerStats :=
  [TickerStats.ok ⟨some (PyNum.finite 1.5), some (PyNum.finite 10),
                   some (PyNum.finite 60), some (PyNum.finite 2)⟩,
   TickerStats.err "no data",
   TickerStats.ok ⟨some (PyNum.finite (-0.2)), some (PyNum.finite (-5)),
                   some (PyNum.finite 40), some (PyNum.finite 0.8)⟩]

/-- A full per-client window: twenty timestamps inside one hour. -/
def twentyStamps : List ℚ :=
  [100, 101, 102, 103, 104, 105, 106, 107, 108, 109,
   110, 111, 112, 113, 114, 115, 116, 117, 118, 119]

/-- A single success whose Sharpe is NaN but whose other metrics are
finite: the composite gate at server.py:262 then never fires. -/
def nanSharpeResults : List TickerStats :=
  [TickerStats.ok ⟨some PyNum.nan, some (PyNum.finite 10),
                   some (PyNum.finite 50), some (PyNum.finite 1)⟩]

/-! ## Admission control (api/server.py:61–94, 160–180, 301–302) -/

def MAX_CONCURRENT : ℤ := 5

def MAX_PER_HOUR : ℕ := 20

/-- Association-list lookup with a default (`defaultdict` access). -/
def getAssoc {α : Type} (m : List (String × α)) (k : String) (dflt : α) : α :=
  match m.find? (fun p => p.1 == k) with
  | some p => p.2
  | none => dflt

/-- Association-list update (`d[k] = v`). -/
def setAssoc {α : Type} : List (String × α) → String → α → List (String × α)
  | [], k, v => [(k, v)]
  | p :: rest, k, v =>
      if p.1 == k then (k, v) :: rest else p :: setAssoc rest k v

/-- The module-level admission state: `_active_count` and
`_hourly_counts` (timestamps in seconds, modelled as rationals). -/
structure AdmissionState where
  activeCount : ℤ
  hourlyCounts : List (String × List ℚ)
  deriving DecidableEq, Repr

/-- Outcome of the admission check: admitted, or one of the two
distinguishable HTTP 429 rejections of `_check_rate_limit`. -/
inductive AdmissionOutcome where
  | admitted
  | rejectedConcurrent
  | rejectedRate
  deriving DecidableEq, Repr

/-- `_check_rate_limit` (server.py:75–94): reject when the in-flight count
has reached `MAX_CONCURRENT`; otherwise evict timestamps at or before
`now - 3600` from the caller's list, reject when `MAX_PER_HOUR` remain,
and otherwise append `now`. -/
def check_rate_limit (st : AdmissionState) (ip : String) (now : ℚ) :
    AdmissionState × AdmissionOutcome :=
  if MAX_CONCURRENT ≤ st.activeCount then (st, AdmissionOutcome.rejectedConcurrent)
  else
    let hourAgo := now - 3600
    let kept := (getAssoc st.hourlyCounts ip []).filter (fun t => decide (hourAgo < t))
    if MAX_PER_HOUR ≤ kept.length then
      ({ st with hourlyCounts := setAssoc st.hourlyCounts ip kept },
       AdmissionOutcome.rejectedRate)
    else
      ({ st with hourlyCounts := setAssoc st.hourlyCounts ip (kept ++ [now]) },
       AdmissionOutcome.admitted)

/-- The admission prologue of the `/backtest` handler (server.py:176–179):
run `_check_rate_limit`; on admission increment `_active_count` before any
pipeline work. -/
def submit (st : AdmissionState) (ip : String) (now : ℚ) :
    AdmissionState × AdmissionOutcome :=
  match check_rate_limit st ip now with
  | (st1, AdmissionOutcome.admitted) =>
      ({ st1 with activeCount := st1.activeCount + 1 }, AdmissionOutcome.admitted)
  | (st1, o) => (st1, o)

/-- The `finally` block of the handler (server.py:301–302): decrement
`_active_count` when the run completes, success or failure. -/
def completeRun (st : AdmissionState) : AdmissionState :=
  { st with activeCount := st.activeCount - 1 }

/-! ## Transform stage with feedback retry (pine_converter.py:254–289,
run_pipeline.py:71–107) -/

/-- Prompt assembly of `convert_pine_to_python`: substitute the Pine code
into the template, and on a retry append the previous attempt's error. -/
def buildPrompt (template pineCode : String) (previousError : Option String) : String :=
  let base := template.replace "\x7bpine_code\x7d" pineCode
  match previousError with
  | none => base
  | some e =>
      base ++ "\n\nPREVIOUS ATTEMPT FAILED WITH ERROR: " ++ e ++
        "\nPlease fix the issue and try again."

/-- `convert_pine_to_python`: one call to the LLM collaborator on the
assembled prompt; a collaborator failure is re-raised as
`LLM API call failed: ...`. -/
def convert_pine_to_python (llm : String → Except String String)
    (template pineCode : String) (previousError : Option String) :
    Except String String :=
  match llm (buildPrompt template pineCode previousError) with
  | Except.ok raw => Except.ok raw
  | Except.error e => Except.error ("LLM API call failed: " ++ e)

/-- The `previous_error` argument of each conversion call made by
`process_single_pine` (run_pipeline.py:89–99), in order. -/
def convertAttemptArgs (llm : String → Except String String)
    (template pineCode : String) : List (Option String) :=
  match convert_pine_to_python llm template pineCode none with
  | Except.ok _ => [none]
  | Except.error e1 => [none, some e1]

/-- Terminal fate of one work item in `process_single_pine`: conversion
failed after the one retry (the function returns `False` without running
any backtest), or conversion succeeded and the evaluate stage ran on the
written backtest file. -/
inductive ProcessResult (σ : Type) where
  | failed (secondError : String)
  | succeeded (stats : σ)
  deriving DecidableEq

/-- The backtest file contents written by `_write_backtest_file`
(run_pipeline.py:171–179): docstring header plus the converted code. -/
def backtestFileContent (statsHeader scriptName pythonCode : String) : String :=
  "\"\"\"\n" ++ statsHeader ++ "\n\nSource: TradingView Community Script — " ++
    scriptName ++ "\nGenerated by DeepStack TradingView Pipeline\n\"\"\"\n\n" ++ pythonCode

/-- `process_single_pine` (run_pipeline.py:71–168), transform and evaluate
stages: try the conversion; on failure retry once passing the first error;
on a second failure record it and stop (no evaluation); on success run the
multi-ticker backtest on the written file. -/
def process_single_pine {σ : Type} (llm : String → Except String String)
    (runMulti : String → σ) (template pineCode scriptName : String) :
    ProcessResult σ :=
  match convert_pine_to_python llm template pineCode none with
  | Except.ok code =>
      ProcessResult.succeeded (runMulti (backtestFileContent "Running..." scriptName code))
  | Except.error e1 =>
      match convert_pine_to_python llm template pineCode (some e1) with
      | Except.ok code =>
          ProcessResult.succeeded
            (runMulti (backtestFileContent "Running..." scriptName code))
      | Except.error e2 => ProcessResult.failed e2

/-! ## Evaluate stage (backtest_engine.py:41–102, data_fetcher.py:7–11) -/

/-- The fixed instrument set of `data_fetcher.TICKERS`. -/
def TICKERS : List String := ["SPY", "BTC", "QQQ"]

/-- `run_backtest` (backtest_engine.py:41–69): run the simulator on the
data; any exception becomes a stats dict with an `"error"` key. -/
def run_backtestEngine {Data : Type} (btRun : Data → Except String StatsMap)
    (d : Data) : TickerStats :=
  match btRun d with
  | Except.ok s => TickerStats.ok s
  | Except.error e => TickerStats.err e

/-- `run_multi_ticker_backtest` (backtest_engine.py:72–102): for every
configured ticker, fetch data and run the backtest; a fetch failure
becomes that ticker's `"error"` entry and the loop continues. -/
def run_multi_ticker_backtest {Data : Type} (fetch : String → Except String Data)
    (btRun : Data → Except String StatsMap) : List (String × TickerStats) :=
  TICKERS.map fun tk =>
    (tk, match fetch tk with
         | Except.ok d => run_backtestEngine btRun d
         | Except.error e => TickerStats.err e)

/-! ## ContentAddressStore and the scrape sweep
(batch_scraper_v6.py:103–113, 394–424) -/

/-- `is_duplicate` (batch_scraper_v6.py:108–113): the content's SHA-256
digest equals a digest already among the ledger's values. -/
def is_duplicate (pineCode : String) (hashes : List (String × String)) : Bool :=
  (hashes.map Prod.snd).contains (compute_content_hash pineCode)

/-- The ledger record operation (`hashes[slug] = compute_content_hash(code)`,
batch_scraper_v6.py:416–417 and pine_converter.py:397–398). -/
def recordHash (hashes : List (String × String)) (itemId pineCode : String) :
    List (String × String) :=
  setAssoc hashes itemId (compute_content_hash pineCode)

/-- The mutable state of one `scrape_category` sweep: the persisted
`state["scraped"]` url list, the hash ledger, the set of slugs whose
`.pine` file exists in the category directory, and the outcome counters of
the `results` dict. -/
structure ScrapeState where
  scrapedUrls : List String
  hashes : List (String × String)
  files : List String
  saved : ℕ
  skipped : ℕ
  duplicate : ℕ
  closed : ℕ
  failed : ℕ
  deriving DecidableEq, Repr

/-- The body of the per-script loop of `scrape_category`
(batch_scraper_v6.py:381–424) with `skip_already_scraped=True` (the value
`main` always passes): skip known urls and existing files, count a
closed-source page, skip an exact-content duplicate without writing
anything, and otherwise write the file, record the hash and the url, and
count a save. The extraction result is `none` for a closed-source page.
`slugify` is the repository's naming helper, kept abstract. -/
def processScript (slugify : String → String) (st : ScrapeState)
    (name url : String) (code : Option String) : ScrapeState :=
  let slug := slugify name
  if st.scrapedUrls.contains url || st.files.contains slug then
    { st with skipped := st.skipped + 1 }
  else
    match code with
    | none => { st with closed := st.closed + 1 }
    | some c =>
      if is_duplicate c st.hashes then
        { st with duplicate := st.duplicate + 1 }
      else
        { st with
            files := st.files ++ [slug],
            hashes := recordHash st.hashes slug c,
            scrapedUrls := st.scrapedUrls ++ [url],
            saved := st.saved + 1 }

/-! ## Helper lemmas -/

theorem beq_false_of_ne {a b : String} (h : a ≠ b) : (a == b) = false := by
  cases hb : a == b
  · rfl
  · exact absurd (eq_of_beq hb) h

theorem getAssoc_setAssoc_self {α : Type} (m : List (String × α)) (k : String)
    (v : α) (d : α) : getAssoc (setAssoc m k v) k d = v := by
  induction m with
  | nil => simp [setAssoc, getAssoc, List.find?]
  | cons p rest ih =>
      by_cases hk : p.1 = k
      · simp [setAssoc, hk, getAssoc, List.find?]
      · have hk' : (p.1 == k) = false := beq_false_of_ne hk
        simpa [setAssoc, hk', getAssoc, List.find?] using ih

theorem getAssoc_setAssoc_ne {α : Type} (m : List (String × α)) (k k2 : String)
    (v : α) (d : α) (h : k2 ≠ k) :
    getAssoc (setAssoc m k v) k2 d = getAssoc m k2 d := by
  have hne : (k == k2) = false := beq_false_of_ne (Ne.symm h)
  induction m with
  | nil => simp [setAssoc, getAssoc, List.find?, hne]
  | cons p rest ih =>
      by_cases hk : p.1 = k
      · have hp2 : (p.1 == k2) = false := by
          rw [hk]; exact hne
        simp [setAssoc, hk, getAssoc, List.find?, hne, hp2]
      · have hk' : (p.1 == k) = false := beq_false_of_ne hk
        by_cases h2 : p.1 = k2
        · have hk2 : (k2 == k) = false := by rw [← h2]; exact hk'
          simp [setAssoc, hk', hk2, getAssoc, List.find?, h2]
        · have h2' : (p.1 == k2) = false := beq_false_of_ne h2
          simpa [setAssoc, hk', getAssoc, List.find?, h2'] using ih

theorem self_mem_setAssoc {α : Type} (m : List (String × α)) (k : String) (v : α) :
    (k, v) ∈ setAssoc m k v := by
  induction m with
  | nil => simp [setAssoc]
  | cons p rest ih =>
      by_cases hk : p.1 = k
      · simp [setAssoc, hk]
      · have hk' : (p.1 == k) = false := beq_false_of_ne hk
        simp [setAssoc, hk', ih]

theorem mem_setAssoc_of_ne_key {α : Type} (m : List (String × α)) (k : String)
    (v : α) (e : String × α) (he : e ∈ m) (hne : e.1 ≠ k) :
    e ∈ setAssoc m k v := by
  induction m with
  | nil => cases he
  | cons p rest ih =>
      by_cases hk : p.1 = k
      · rcases List.mem_cons.1 he with rfl | hrest
        · exact absurd hk hne
        · simp [setAssoc, hk, hrest]
      · have hk' : (p.1 == k) = false := beq_false_of_ne hk
        rcases List.mem_cons.1 he with rfl | hrest
        · simp [setAssoc, hk']
        · simp [setAssoc, hk', ih hrest]

theorem setAssoc_of_fresh_key {α : Type} (m : List (String × α)) (k : String)
    (v : α) (h : k ∉ m.map Prod.fst) : setAssoc m k v = m ++ [(k, v)] := by
  induction m with
  | nil => simp [setAssoc]
  | cons p rest ih =>
      simp only [List.map_cons, List.mem_cons, not_or] at h
      have hk' : (p.1 == k) = false := beq_false_of_ne (Ne.symm h.1)
      simp [setAssoc, hk', ih h.2]

theorem length_filter_lt_of_exists_not {α : Type} (l : List α) (p : α → Bool)
    (h : ∃ x ∈ l, p x = false) : (l.filter p).length < l.length := by
  induction l with
  | nil => simp at h
  | cons a t ih =>
      rcases h with ⟨x, hx, hpx⟩
      rcases List.mem_cons.1 hx with rfl | hxt
      · simp only [List.filter_cons, hpx, List.length_cons]
        exact Nat.lt_succ_of_le (List.length_filter_le p t)
      · cases hpa : p a
        · simp only [List.filter_cons, hpa, List.length_cons]
          exact Nat.lt_succ_of_le (List.length_filter_le p t)
        · simp only [List.filter_cons, hpa, List.length_cons]
          exact Nat.succ_lt_succ (ih ⟨x, hxt, hpx⟩)

theorem clean_numeric_eq_some (o : Option PyNum) (q : ℚ) :
    clean_numeric o = some q ↔ o = some (PyNum.finite q) := by
  cases o with
  | none => simp [clean_numeric]
  | some v => cases v <;> simp [clean_numeric]

theorem metric_values_eq (get : StatsMap → Option PyNum) (ms : List TickerStats) :
    metric_values get ms = (okStats ms).filterMap (fun s => clean_numeric (get s)) := by
  induction ms with
  | nil => rfl
  | cons a t ih =>
      cases a with
      | ok s => simp [metric_values, okStats, List.filterMap_cons] at ih ⊢; rw [ih]
      | err e => simpa [metric_values, okStats, List.filterMap_cons] using ih

theorem filterMap_eq_map_of_isSome (l : List StatsMap) (f : StatsMap → Option ℚ)
    (h : ∀ s ∈ l, (f s).isSome) :
    l.filterMap f = l.map (fun s => (f s).getD 0) := by
  induction l with
  | nil => rfl
  | cons a t ih =>
      rcases Option.isSome_iff_exists.1 (h a (List.mem_cons_self a t)) with ⟨x, hx⟩
      rw [List.filterMap_cons, hx, List.map_cons, hx,
        ih (fun s hs => h s (List.mem_cons_of_mem a hs))]
      rfl

theorem okStats_nil_of_all_err (ms : List TickerStats)
    (h : ∀ s ∈ ms, ∃ e, s = TickerStats.err e) : okStats ms = [] := by
  induction ms with
  | nil => rfl
  | cons a t ih =>
      rcases h a (List.mem_cons_self a t) with ⟨e, rfl⟩
      simpa [okStats, List.filterMap_cons] using
        ih (fun s hs => h s (List.mem_cons_of_mem _ hs))

theorem ite_nil_mean (l : List ℚ) :
    (if l = [] then (0 : ℚ) else l.sum / l.length) = l.sum / l.length := by
  by_cases h : l = []
  · simp [h]
  · rw [if_neg h]

/-! ## Claims about the composite score -/

/-- C1. When every success carries finite values for all four scored
metrics and at least one success exists, the returned `composite_score`
is `0.30 * mean(sharpe) + 0.25 * (mean(return)/100) + 0.25 *
(mean(win rate)/100) + 0.20 * (mean(profit factor)/10)` — means taken
over the successes only — rounded to four decimal places; and on the
spec's three-instrument scenario the returned composite is 0.3543. -/
theorem composite_formula_and_scenario (ms : List TickerStats)
    (hne : okStats ms ≠ [])
    (hfin : ∀ s ∈ okStats ms, (clean_numeric s.sharpe).isSome ∧
      (clean_numeric s.ret).isSome ∧ (clean_numeric s.winRate).isSome ∧
      (clean_numeric s.profitFactor).isSome) :
    composite_score ms =
      some (round4 (0.30 * listMean ((okStats ms).map (fun s => finValD s.sharpe))
        + 0.25 * (listMean ((okStats ms).map (fun s => finValD s.ret)) / 100)
        + 0.25 * (listMean ((okStats ms).map (fun s => finValD s.winRate)) / 100)
        + 0.20 * (listMean ((okStats ms).map (fun s => finValD s.profitFactor)) / 10)))
    ∧ composite_score scenarioResults = some 0.3543 := by
  refine ⟨?_, by decide⟩
  have hsh : sharpe_values ms = (okStats ms).map (fun s => finValD s.sharpe) := by
    rw [sharpe_values, metric_values_eq]
    exact filterMap_eq_map_of_isSome _ _ (fun s hs => (hfin s hs).1)
  have hroi : roi_vals ms = (okStats ms).map (fun s => finValD s.ret) := by
    rw [roi_vals, metric_values_eq]
    exact filterMap_eq_map_of_isSome _ _ (fun s hs => (hfin s hs).2.1)
  have hwr : wr_vals ms = (okStats ms).map (fun s => finValD s.winRate) := by
    rw [wr_vals, metric_values_eq]
    exact filterMap_eq_map_of_isSome _ _ (fun s hs => (hfin s hs).2.2.1)
  have hpf : pf_vals ms = (okStats ms).map (fun s => finValD s.profitFactor) := by
    rw [pf_vals, metric_values_eq]
    exact filterMap_eq_map_of_isSome _ _ (fun s hs => (hfin s hs).2.2.2)
  have hshne : sharpe_values ms ≠ [] := by
    rw [hsh]; simpa [List.map_eq_nil_iff] using hne
  have hroine : roi_vals ms ≠ [] := by
    rw [hroi]; simpa [List.map_eq_nil_iff] using hne
  have hwrne : wr_vals ms ≠ [] := by
    rw [hwr]; simpa [List.map_eq_nil_iff] using hne
  have hpfne : pf_vals ms ≠ [] := by
    rw [hpf]; simpa [List.map_eq_nil_iff] using hne
  simp only [composite_score, composite, if_neg hshne, if_neg hroine,
    if_neg hwrne, if_neg hpfne]
  rw [hsh, hroi, hwr, hpf]
  simp only [listMean]
  ring_nf

/-- C1 witness: the scenario instantiates the hypotheses and yields the
rounded composite 0.3543. -/
theorem composite_formula_witness :
    composite_score scenarioResults = some (0.3543 : ℚ) :=
  (composite_formula_and_scenario scenarioResults (by decide) (by decide)).2

/-- C2 counterexample: a result set with one success (so "at least one
success" holds) whose Sharpe is NaN; the Sharpe value list is empty after
cleaning and the composite is `None`, not a composite with a zero Sharpe
term — the claim's mean-of-empty-set = 0 rule does not apply to the
risk-adjusted-return metric. -/
theorem nan_sharpe_gate_cex :
    okStats nanSharpeResults ≠ [] ∧ sharpe_values nanSharpeResults = [] ∧
    roi_vals nanSharpeResults = [10] ∧
    composite_score nanSharpeResults = none := by decide

/-- C2 (amended). Non-finite metric values (NaN/±inf) are cleaned to
absent and excluded from every metric's value list (never zero, never in
the composite); when at least one finite Sharpe survives, the composite is
computed with mean-of-empty-set = 0 for the raw-return, win-rate and
profit-factor terms; but when no finite Sharpe survives among the
successes, the composite is undefined (`None`) rather than computed with
a zero Sharpe term. -/
theorem composite_cleaning_and_empty_metric (ms : List TickerStats) :
    (clean_numeric (some PyNum.nan) = none ∧ clean_numeric (some PyNum.inf) = none ∧
     clean_numeric (some PyNum.ninf) = none) ∧
    (∀ get : StatsMap → Option PyNum, ∀ q : ℚ,
       q ∈ metric_values get ms ↔ ∃ s ∈ okStats ms, get s = some (PyNum.finite q)) ∧
    (sharpe_values ms ≠ [] →
       composite_score ms =
         some (round4 (listMean (sharpe_values ms) * 0.3
           + listMean (roi_vals ms) / 100 * 0.25
           + listMean (wr_vals ms) / 100 * 0.25
           + listMean (pf_vals ms) / 10 * 0.2))) ∧
    (sharpe_values ms = [] → composite_score ms = none) := by
  refine ⟨⟨rfl, rfl, rfl⟩, ?_, ?_, ?_⟩
  · intro get q
    rw [metric_values_eq]
    simp only [List.mem_filterMap, clean_numeric_eq_some]
  · intro h
    simp only [composite_score, composite, if_neg h, ite_nil_mean, listMean]
  · intro h
    simp [composite_score, composite, if_pos h]

/-- C2 witness: one success with a finite Sharpe and return, a missing
win rate and an infinite profit factor: the two empty metric lists
contribute zero and the composite is 0.3 + 0.05 = 0.35. -/
theorem composite_cleaning_witness :
    composite_score [TickerStats.ok ⟨some (PyNum.finite 1), some (PyNum.finite 20),
      none, some PyNum.inf⟩] = some (0.35 : ℚ) := by
  have h := (composite_cleaning_and_empty_metric
    [TickerStats.ok ⟨some (PyNum.finite 1), some (PyNum.finite 20),
      none, some PyNum.inf⟩]).2.2.1 (by decide)
  rw [h]; decide

/-- C3. When every per-instrument result has its error field set (zero
successes), the composite score is `None` — the response is still
produced, with no rank. -/
theorem all_failed_composite_undefined (ms : List TickerStats)
    (h : ∀ s ∈ ms, ∃ e, s = TickerStats.err e) :
    composite_score ms = none := by
  have hok : okStats ms = [] := okStats_nil_of_all_err ms h
  have hsh : sharpe_values ms = [] := by
    rw [sharpe_values, metric_values_eq, hok]; rfl
  simp [composite_score, composite, if_pos hsh]

/-- C3 witness: two failed instruments yield a `None` composite. -/
theorem all_failed_composite_witness :
    composite_score [TickerStats.err "no data", TickerStats.err "timeout"] = none :=
  all_failed_composite_undefined _ (by
    intro s hs
    rcases List.mem_cons.1 hs with rfl | hs2
    · exact ⟨"no data", rfl⟩
    · rcases List.mem_cons.1 hs2 with rfl | hs3
      · exact ⟨"timeout", rfl⟩
      · cases hs3)

/-! ## Claims about the admission controller -/

/-- C4. The in-flight count never exceeds `MAX_CONCURRENT = 5`: a
submission arriving with the ceiling reached is rejected with the
concurrency reason and no state change (no pipeline work starts); an
admitted submission increments the in-flight count before work starts;
completion (success or failure) decrements it; and after one full slot
completes, a submission from a client under its rate window is admitted
again. -/
theorem concurrency_ceiling (st : AdmissionState) (ip : String) (now : ℚ) :
    (MAX_CONCURRENT ≤ st.activeCount →
       submit st ip now = (st, AdmissionOutcome.rejectedConcurrent)) ∧
    (st.activeCount ≤ MAX_CONCURRENT →
       (submit st ip now).1.activeCount ≤ MAX_CONCURRENT) ∧
    ((submit st ip now).2 = AdmissionOutcome.admitted →
       (submit st ip now).1.activeCount = st.activeCount + 1) ∧
    ((completeRun st).activeCount = st.activeCount - 1) ∧
    (st.activeCount = MAX_CONCURRENT →
       ((getAssoc st.hourlyCounts ip []).filter
           (fun t => decide (now - 3600 < t))).length < MAX_PER_HOUR →
       (submit (completeRun st) ip now).2 = AdmissionOutcome.admitted) := by
  refine ⟨?_, ?_, ?_, rfl, ?_⟩
  · intro h
    simp [submit, check_rate_limit, if_pos h]
  · intro h
    by_cases h5 : MAX_CONCURRENT ≤ st.activeCount
    · simp [submit, check_rate_limit, if_pos h5, h]
    · push_neg at h5
      by_cases hr : MAX_PER_HOUR ≤
          ((getAssoc st.hourlyCounts ip []).filter (fun t => decide (now - 3600 < t))).length
      · simp [submit, check_rate_limit, if_neg (not_le.2 h5), if_pos hr, le_of_lt h5]
      · simp only [submit, check_rate_limit, if_neg (not_le.2 h5), if_neg hr]
        omega
  · intro h
    by_cases h5 : MAX_CONCURRENT ≤ st.activeCount
    · simp [submit, check_rate_limit, if_pos h5] at h
    · by_cases hr : MAX_PER_HOUR ≤
          ((getAssoc st.hourlyCounts ip []).filter (fun t => decide (now - 3600 < t))).length
      · simp [submit, check_rate_limit, if_neg h5, if_pos hr] at h
      · simp [submit, check_rate_limit, if_neg h5, if_neg hr]
  · intro h5 hr
    have hn1 : ¬ MAX_CONCURRENT ≤ st.activeCount - 1 := by rw [h5]; decide
    simp only [submit, check_rate_limit, completeRun]
    rw [if_neg hn1, if_neg (not_le.2 hr)]

/-- C4 witness: with the ceiling reached (5 in flight) a fresh client is
rejected; after one completion the same client is admitted. -/
theorem concurrency_ceiling_witness :
    submit ⟨5, []⟩ "client" 7200 = (⟨5, []⟩, AdmissionOutcome.rejectedConcurrent) ∧
    (submit (completeRun ⟨5, []⟩) "client" 7200).2 = AdmissionOutcome.admitted := by
  refine ⟨(concurrency_ceiling ⟨5, []⟩ "client" 7200).1 (by decide), ?_⟩
  exact (concurrency_ceiling ⟨5, []⟩ "client" 7200).2.2.2.2 (by decide) (by decide)

/-- C5. The per-client sliding window: every admission check first evicts
the client's timestamps at or before `now - 3600` (afterwards every stored
timestamp is inside the window); if `MAX_PER_HOUR = 20` timestamps remain
the submission is rejected with the rate reason, which is distinct from
the concurrency reason; and once `now` has moved past the window of some
recorded timestamp of a full list, a new submission is admitted. -/
theorem rate_window (st : AdmissionState) (ip : String) (now : ℚ)
    (hactive : st.activeCount < MAX_CONCURRENT) :
    (∀ t ∈ getAssoc (submit st ip now).1.hourlyCounts ip [], now - 3600 < t) ∧
    (MAX_PER_HOUR ≤ ((getAssoc st.hourlyCounts ip []).filter
         (fun t => decide (now - 3600 < t))).length →
       (submit st ip now).2 = AdmissionOutcome.rejectedRate) ∧
    (AdmissionOutcome.rejectedRate ≠ AdmissionOutcome.rejectedConcurrent) ∧
    ((getAssoc st.hourlyCounts ip []).length ≤ MAX_PER_HOUR →
     (∃ t ∈ getAssoc st.hourlyCounts ip [], t ≤ now - 3600) →
       (submit st ip now).2 = AdmissionOutcome.admitted) := by
  have h5 : ¬ MAX_CONCURRENT ≤ st.activeCount := not_le.2 hactive
  refine ⟨?_, ?_, by decide, ?_⟩
  · intro t ht
    by_cases hr : MAX_PER_HOUR ≤ ((getAssoc st.hourlyCounts ip []).filter
        (fun t => decide (now - 3600 < t))).length
    · simp only [submit, check_rate_limit, if_neg h5, if_pos hr] at ht
      rw [getAssoc_setAssoc_self] at ht
      have := List.of_mem_filter ht
      simpa using this
    · simp only [submit, check_rate_limit, if_neg h5, if_neg hr] at ht
      rw [getAssoc_setAssoc_self] at ht
      rcases List.mem_append.1 ht with hmem | hmem
      · have := List.of_mem_filter hmem
        simpa using this
      · simp only [List.mem_singleton] at hmem
        subst hmem
        linarith
  · intro hr
    simp [submit, check_rate_limit, if_neg h5, if_pos hr]
  · intro hlen ⟨t, htmem, htold⟩
    have hdrop : ((getAssoc st.hourlyCounts ip []).filter
        (fun t => decide (now - 3600 < t))).length < (getAssoc st.hourlyCounts ip []).length := by
      refine length_filter_lt_of_exists_not _ _ ⟨t, htmem, ?_⟩
      simpa using not_lt.2 htold
    have hr : ¬ MAX_PER_HOUR ≤ ((getAssoc st.hourlyCounts ip []).filter
        (fun t => decide (now - 3600 < t))).length := by omega
    simp [submit, check_rate_limit, if_neg h5, if_neg hr]

/-- C5 witness: a client with a full window of 20 fresh timestamps is
rate-rejected; the same list seen 3601 seconds after its oldest timestamp
admits again. -/
theorem rate_window_witness :
    (submit ⟨0, [("c", twentyStamps)]⟩ "c" 200).2 =
      AdmissionOutcome.rejectedRate ∧
    (submit ⟨0, [("c", twentyStamps)]⟩ "c" 3701).2 =
      AdmissionOutcome.admitted := by
  constructor
  · exact (rate_window ⟨0, [("c", twentyStamps)]⟩
      "c" 200 (by decide)).2.1 (by decide)
  · exact (rate_window ⟨0, [("c", twentyStamps)]⟩
      "c" 3701 (by decide)).2.2.2 (by decide) ⟨100, by decide, by decide⟩

/-- C10. A rejected submission consumes no quota: a concurrency rejection
leaves the admission state untouched, and a rate rejection leaves the
in-flight count unchanged, leaves every other client's timestamps
unchanged, and stores for the rejected client exactly its old list with
the expired timestamps evicted — in particular no new timestamp is
appended. -/
theorem rejection_no_quota (st : AdmissionState) (ip : String) (now : ℚ) :
    ((submit st ip now).2 = AdmissionOutcome.rejectedConcurrent →
       (submit st ip now).1 = st) ∧
    ((submit st ip now).2 = AdmissionOutcome.rejectedRate →
       (submit st ip now).1.activeCount = st.activeCount ∧
       getAssoc (submit st ip now).1.hourlyCounts ip [] =
         (getAssoc st.hourlyCounts ip []).filter (fun t => decide (now - 3600 < t)) ∧
       (∀ ip2, ip2 ≠ ip →
          getAssoc (submit st ip now).1.hourlyCounts ip2 [] =
            getAssoc st.hourlyCounts ip2 [])) := by
  by_cases h5 : MAX_CONCURRENT ≤ st.activeCount
  · refine ⟨fun _ => ?_, fun h => ?_⟩
    · simp [submit, check_rate_limit, if_pos h5]
    · simp [submit, check_rate_limit, if_pos h5] at h
  · by_cases hr : MAX_PER_HOUR ≤ ((getAssoc st.hourlyCounts ip []).filter
        (fun t => decide (now - 3600 < t))).length
    · refine ⟨fun h => ?_, fun _ => ⟨?_, ?_, ?_⟩⟩
      · simp [submit, check_rate_limit, if_neg h5, if_pos hr] at h
      · simp [submit, check_rate_limit, if_neg h5, if_pos hr]
      · simp only [submit, check_rate_limit, if_neg h5, if_pos hr]
        exact getAssoc_setAssoc_self _ _ _ _
      · intro ip2 hne
        simp only [submit, check_rate_limit, if_neg h5, if_pos hr]
        exact getAssoc_setAssoc_ne _ _ _ _ _ hne
    · refine ⟨fun h => ?_, fun h => ?_⟩
      · simp [submit, check_rate_limit, if_neg h5, if_neg hr] at h
      · simp [submit, check_rate_limit, if_neg h5, if_neg hr] at h

/-- C10 witness: a rate-rejected attempt (20 fresh timestamps) appends
nothing for the client and changes nothing for another client. -/
theorem rejection_no_quota_witness :
    (submit ⟨0, [("c", twentyStamps)]⟩ "c" 200).1.activeCount = 0 ∧
    getAssoc (submit ⟨0, [("c", twentyStamps)]⟩
        "c" 200).1.hourlyCounts "d" [] = [] := by
  constructor
  · exact ((rejection_no_quota ⟨0, [("c", twentyStamps)]⟩
      "c" 200).2 (by decide)).1
  · exact (((rejection_no_quota ⟨0, [("c", twentyStamps)]⟩
      "c" 200).2 (by decide)).2.2 "d" (by decide)).trans (by decide)

/-! ## Claims about the transform retry and the evaluate stage -/

/-- C6. The transform stage is attempted at most twice; when the first
conversion fails, the single retry passes the first failure's error
message (which appears verbatim inside the retry prompt), and when the
retry also fails the item fails terminally with the second error and no
evaluation runs — the outcome is the same whatever the evaluator would
have returned. -/
theorem transform_retry_feedback {σ : Type} (llm : String → Except String String)
    (template pineCode scriptName e1 e2 : String)
    (h1 : convert_pine_to_python llm template pineCode none = Except.error e1)
    (h2 : convert_pine_to_python llm template pineCode (some e1) = Except.error e2) :
    (∀ llm2 : String → Except String String,
       (convertAttemptArgs llm2 template pineCode).length ≤ 2) ∧
    convertAttemptArgs llm template pineCode = [none, some e1] ∧
    (∃ a b, buildPrompt template pineCode (some e1) = a ++ e1 ++ b) ∧
    (∀ runMulti2 : String → σ,
       process_single_pine llm runMulti2 template pineCode scriptName =
         ProcessResult.failed e2) := by
  refine ⟨?_, ?_, ?_, ?_⟩
  · intro llm2
    unfold convertAttemptArgs
    cases convert_pine_to_python llm2 template pineCode none <;> simp
  · unfold convertAttemptArgs
    rw [h1]
  · exact ⟨template.replace "\x7bpine_code\x7d" pineCode ++
      "\n\nPREVIOUS ATTEMPT FAILED WITH ERROR: ",
      "\nPlease fix the issue and try again.", rfl⟩
  · intro runMulti2
    unfold process_single_pine
    rw [h1]
    simp [h2]

/-- C6 witness: with a collaborator that always fails, the item fails
terminally with the wrapped second error and the evaluator is never
consulted. -/
theorem transform_retry_witness :
    process_single_pine (fun _ => Except.error "boom") (fun _ => (0 : ℕ))
      "T" "P" "s" = ProcessResult.failed "LLM API call failed: boom" :=
  (transform_retry_feedback (fun _ => Except.error "boom")
    "T" "P" "s" "LLM API call failed: boom" "LLM API call failed: boom"
    rfl rfl).2.2.2 (fun _ => (0 : ℕ))

/-- C8. The evaluate stage attempts every configured instrument and
returns exactly one result per instrument in the configured order; a
fetch failure or a simulator failure on one instrument is recorded as
that instrument's error entry without stopping the others; and an item
whose conversion succeeded reaches its evaluated terminal state
(`succeeded`) whatever the per-instrument outcomes are. -/
theorem evaluate_all_instruments {Data : Type} (fetch : String → Except String Data)
    (btRun : Data → Except String StatsMap) :
    ((run_multi_ticker_backtest fetch btRun).map Prod.fst = TICKERS) ∧
    (∀ tk e, tk ∈ TICKERS → fetch tk = Except.error e →
       (tk, TickerStats.err e) ∈ run_multi_ticker_backtest fetch btRun) ∧
    (∀ tk d e, tk ∈ TICKERS → fetch tk = Except.ok d → btRun d = Except.error e →
       (tk, TickerStats.err e) ∈ run_multi_ticker_backtest fetch btRun) ∧
    (∀ tk d s, tk ∈ TICKERS → fetch tk = Except.ok d → btRun d = Except.ok s →
       (tk, TickerStats.ok s) ∈ run_multi_ticker_backtest fetch btRun) ∧
    (∀ (σ : Type) (llm : String → Except String String) (runMulti : String → σ)
       (template pineCode scriptName code : String),
       convert_pine_to_python llm template pineCode none = Except.ok code →
       process_single_pine llm runMulti template pineCode scriptName =
         ProcessResult.succeeded
           (runMulti (backtestFileContent "Running..." scriptName code))) := by
  refine ⟨by rfl, ?_, ?_, ?_, ?_⟩
  · intro tk e htk hf
    unfold run_multi_ticker_backtest
    refine List.mem_map.2 ⟨tk, htk, ?_⟩
    rw [hf]
  · intro tk d e htk hf hb
    unfold run_multi_ticker_backtest
    refine List.mem_map.2 ⟨tk, htk, ?_⟩
    simp [hf, run_backtestEngine, hb]
  · intro tk d s htk hf hb
    unfold run_multi_ticker_backtest
    refine List.mem_map.2 ⟨tk, htk, ?_⟩
    simp [hf, run_backtestEngine, hb]
  · intro σ llm runMulti template pineCode scriptName code hconv
    unfold process_single_pine
    rw [hconv]

/-- C8 witness: with a fetcher that fails only on BTC, the sweep still
produces one result for each of SPY, BTC and QQQ, with BTC's failure
recorded inline as its error entry. -/
theorem evaluate_all_instruments_witness :
    ("BTC", TickerStats.err "no data") ∈
      run_multi_ticker_backtest
        (fun tk => if tk = "BTC" then Except.error "no data" else Except.ok ())
        (fun _ => Except.ok ⟨none, none, none, none⟩) ∧
    (run_multi_ticker_backtest
        (fun tk => if tk = "BTC" then Except.error "no data" else Except.ok ())
        (fun _ => Except.ok ⟨none, none, none, none⟩)).map Prod.fst = TICKERS := by
  constructor
  · exact (evaluate_all_instruments
      (fun tk => if tk = "BTC" then Except.error "no data" else Except.ok ())
      (fun _ => Except.ok ⟨none, none, none, none⟩)).2.1 "BTC" "no data"
      (by decide) (by simp)
  · exact (evaluate_all_instruments
      (fun tk => if tk = "BTC" then Except.error "no data" else Except.ok ())
      (fun _ => Except.ok ⟨none, none, none, none⟩)).1

/-! ## Claims about deduplication and the hash ledger -/

/-- C7. `is_duplicate` holds exactly when the SHA-256 digest of the
content equals a previously recorded digest; and when two work items with
byte-identical content are processed in one sweep (both passing the
url/file skip checks), the first is saved and recorded while the second
is counted as a duplicate and nothing else changes: no file is written
for it, no hash is recorded, and it is not a failure. -/
theorem dedup_exact_content (slugify : String → String) (st : ScrapeState)
    (name1 url1 name2 url2 c : String)
    (h1u : url1 ∉ st.scrapedUrls) (h1f : slugify name1 ∉ st.files)
    (h1d : compute_content_hash c ∉ st.hashes.map Prod.snd)
    (h2u : url2 ∉ (processScript slugify st name1 url1 (some c)).scrapedUrls)
    (h2f : slugify name2 ∉ (processScript slugify st name1 url1 (some c)).files) :
    (∀ code hashes2, is_duplicate code hashes2 = true ↔
       compute_content_hash code ∈ hashes2.map Prod.snd) ∧
    (processScript slugify st name1 url1 (some c)).saved = st.saved + 1 ∧
    (processScript slugify st name1 url1 (some c)).files = st.files ++ [slugify name1] ∧
    (slugify name1, compute_content_hash c) ∈
      (processScript slugify st name1 url1 (some c)).hashes ∧
    processScript slugify (processScript slugify st name1 url1 (some c))
        name2 url2 (some c) =
      { processScript slugify st name1 url1 (some c) with
          duplicate := (processScript slugify st name1 url1 (some c)).duplicate + 1 } := by
  have hdupiff : ∀ code (hashes2 : List (String × String)),
      is_duplicate code hashes2 = true ↔
        compute_content_hash code ∈ hashes2.map Prod.snd := by
    intro code hashes2
    simp [is_duplicate]
  have hc1 : (st.scrapedUrls.contains url1 || st.files.contains (slugify name1)) = false := by
    simp [h1u, h1f]
  have hdup1 : is_duplicate c st.hashes = false := by
    cases hd : is_duplicate c st.hashes
    · rfl
    · exact absurd ((hdupiff c st.hashes).1 hd) h1d
  have hstep1 : processScript slugify st name1 url1 (some c) =
      { st with
          files := st.files ++ [slugify name1],
          hashes := recordHash st.hashes (slugify name1) c,
          scrapedUrls := st.scrapedUrls ++ [url1],
          saved := st.saved + 1 } := by
    unfold processScript
    simp [hc1, hdup1]
    exact ⟨h1u, h1f⟩
  have hmem1 : (slugify name1, compute_content_hash c) ∈
      (processScript slugify st name1 url1 (some c)).hashes := by
    rw [hstep1]
    exact self_mem_setAssoc _ _ _
  have hstep2 : ∀ st2 : ScrapeState, url2 ∉ st2.scrapedUrls →
      slugify name2 ∉ st2.files → is_duplicate c st2.hashes = true →
      processScript slugify st2 name2 url2 (some c) =
        { st2 with duplicate := st2.duplicate + 1 } := by
    intro st2 hu hf hd
    have hc2 : (st2.scrapedUrls.contains url2 ||
        st2.files.contains (slugify name2)) = false := by
      simp [hu, hf]
    unfold processScript
    simp [hc2, hd]
    exact ⟨hu, hf⟩
  have hdup2 : is_duplicate c (processScript slugify st name1 url1 (some c)).hashes = true :=
    (hdupiff c _).2 (List.mem_map.2 ⟨(slugify name1, compute_content_hash c), hmem1, rfl⟩)
  exact ⟨hdupiff, by rw [hstep1], by rw [hstep1], hmem1, hstep2 _ h2u h2f hdup2⟩

/-- C7 witness: two items with byte-identical content "x" in an empty
sweep: the first is saved, the second is counted as the sweep's one
duplicate. -/
theorem dedup_exact_content_witness :
    (processScript (fun s => s) ⟨[], [], [], 0, 0, 0, 0, 0⟩ "a" "u1" (some "x")).saved = 1 ∧
    (processScript (fun s => s)
        (processScript (fun s => s) ⟨[], [], [], 0, 0, 0, 0, 0⟩ "a" "u1" (some "x"))
        "b" "u2" (some "x")).duplicate = 1 := by
  have h := dedup_exact_content (fun s => s) ⟨[], [], [], 0, 0, 0, 0, 0⟩
    "a" "u1" "b" "u2" "x" (by decide) (by decide) (by decide) (by decide) (by decide)
  constructor
  · rw [h.2.1]
  · rw [h.2.2.2.2]
    decide

set_option maxRecDepth 1000000 in
/-- C9 counterexample: recording the same item id again with different
content replaces the id's ledger entry — the previously present
(item id, content hash) pair is gone after the record operation, so the
ledger does not grow monotonically under every record. -/
theorem ledger_overwrite_cex :
    ("a", compute_content_hash "x") ∈ recordHash [] "a" "x" ∧
    ("a", compute_content_hash "x") ∉ recordHash (recordHash [] "a" "x") "a" "y" := by
  decide

/-- C9 (amended). Recording an item id not already present in the ledger
preserves every existing entry and adds exactly the new (item id, content
hash) entry; recording any item id preserves every entry whose item id
differs — only the recorded id's own entry can be replaced. -/
theorem ledger_growth_amended (hashes : List (String × String))
    (itemId pineCode : String) :
    (itemId ∉ hashes.map Prod.fst →
       (∀ e ∈ hashes, e ∈ recordHash hashes itemId pineCode) ∧
       (itemId, compute_content_hash pineCode) ∈ recordHash hashes itemId pineCode ∧
       (recordHash hashes itemId pineCode).length = hashes.length + 1) ∧
    (∀ e ∈ hashes, e.1 ≠ itemId → e ∈ recordHash hashes itemId pineCode) := by
  constructor
  · intro hfresh
    rw [recordHash, setAssoc_of_fresh_key _ _ _ hfresh]
    exact ⟨fun e he => List.mem_append_left _ he,
      List.mem_append_right _ (by simp), by simp⟩
  · intro e he hne
    exact mem_setAssoc_of_ne_key _ _ _ _ he hne

set_option maxRecDepth 1000000 in
/-- C9 witness: recording a fresh item id keeps the existing entry and
grows the ledger by one. -/
theorem ledger_growth_witness :
    ("b", compute_content_hash "z") ∈
      recordHash [("b", compute_content_hash "z")] "a2" "w" ∧
    (recordHash [("b", compute_content_hash "z")] "a2" "w").length = 2 := by
  have h := (ledger_growth_amended [("b", compute_content_hash "z")] "a2" "w").1 (by decide)
  exact ⟨h.1 _ (by decide), h.2.2⟩

end CollectTV
